import Mathlib

/-!
Shallow embedding of the custom prompt processor
(`src/customPromptProcessor.ts`) of an Obsidian AI-assistant plugin,
together with a model of the note-repository adapter functions it imports
from `@/utils` (those adapters are not part of the processor file; they are
modelled from the specification of the repository interface).

The embedding is purely functional: vault reads become lookups in an
explicit `Vault` value, and the user-visible `new Notice(...)` side effects
become an extra `List String` component of each result.
-/

namespace Copilot

/-! ### Character-list string utilities

JavaScript string primitives (`includes`, `startsWith`, `trim`, `split`,
`join`, `toLowerCase`, `slice`) are embedded as structurally recursive
functions over `List Char`, so that every definition evaluates by `rfl`
or `decide`. -/

/-- Boolean test that the first list occurs at the head of the second
(character-level `startsWith`). -/
def listStartsWith : List Char → List Char → Bool
  | [], _ => true
  | _ :: _, [] => false
  | a :: as, b :: bs => a == b && listStartsWith as bs

/-- Boolean substring containment at the character-list level. -/
def listContainsSub (needle : List Char) : List Char → Bool
  | [] => listStartsWith needle []
  | c :: rest => listStartsWith needle (c :: rest) || listContainsSub needle rest

/-- String-level substring containment, mirroring JavaScript
`hay.includes(needle)`. -/
def containsSub (needle hay : String) : Bool :=
  listContainsSub needle.data hay.data

/-- Mirrors JavaScript `s.startsWith(pre)`. -/
def strStartsWith (s pre : String) : Bool :=
  listStartsWith pre.data s.data

/-- Drop whitespace from both ends of a character list. -/
def trimChars (l : List Char) : List Char :=
  ((l.dropWhile Char.isWhitespace).reverse.dropWhile Char.isWhitespace).reverse

/-- Mirrors JavaScript `s.trim()`. -/
def trimStr (s : String) : String :=
  String.mk (trimChars s.data)

/-- Mirrors JavaScript `s.toLowerCase()` (ASCII case folding suffices for the
identifiers compared in the processor). -/
def lowerStr (s : String) : String :=
  String.mk (s.data.map Char.toLower)

/-- Mirrors JavaScript `s.slice(n)` for a non-negative index. -/
def dropStr (n : Nat) (s : String) : String :=
  String.mk (s.data.drop n)

/-- Helper of `splitOnChar`: accumulate the current segment (reversed). -/
def splitOnCharAux (delim : Char) : List Char → List Char → List (List Char)
  | [], cur => [cur.reverse]
  | c :: rest, cur =>
    if c = delim then cur.reverse :: splitOnCharAux delim rest []
    else splitOnCharAux delim rest (c :: cur)

/-- Mirrors JavaScript `s.split(delim)` for a one-character delimiter. -/
def splitOnChar (delim : Char) (s : String) : List String :=
  (splitOnCharAux delim s.data []).map String.mk

/-- Mirrors JavaScript `parts.join(sep)`. -/
def joinSep (sep : String) : List String → String
  | [] => ""
  | [s] => s
  | s :: rest => s ++ sep ++ joinSep sep rest

/-- Concatenation of a list of strings (no separator). -/
def strConcat : List String → String
  | [] => ""
  | s :: rest => s ++ strConcat rest

/-! ### The two micro-syntax scanners

`extractMatches` embeds the global regex `\{([^}]+)\}` used both by
`extractVariablesFromPrompt` (line 146) and `processCustomPrompt`
(line 232): left-to-right, non-overlapping, a span opens at a `{` and
closes at the first following `}`, and the inner text must be non-empty
(so the literal `{}` is not a variable span).

`extractNoteTitles` embeds the `[[...]]` span extraction of the
`extractNoteTitles` utility. Modelled from the spec: the utility itself is
imported from `@/utils` and not part of the processor source; the spec
describes it as extracting all `[[...]]` spans in order, a span closing at
the first following `]]`. -/

/-- State machine for the `\{([^}]+)\}` scan: `none` = outside a span,
`some acc` = inside a span with reversed inner text `acc`. -/
def scanBracesAux : Option (List Char) → List Char → List String
  | _, [] => []
  | none, c :: rest =>
    if c = '{' then scanBracesAux (some []) rest
    else scanBracesAux none rest
  | some acc, c :: rest =>
    if c = '}' then
      if acc.isEmpty then scanBracesAux none rest
      else String.mk acc.reverse :: scanBracesAux none rest
    else scanBracesAux (some (c :: acc)) rest

/-- All inner texts of `{...}` variable spans of `s`, in scan order
(the capture groups of `s.matchAll(/\{([^}]+)\}/g)`). -/
def extractMatches (s : String) : List String :=
  scanBracesAux none s.data

/-- State of the `[[...]]` scanner. -/
inductive LinkScanState where
  | outside : LinkScanState
  | sawOpen : LinkScanState
  | inside (acc : List Char) : LinkScanState
  | sawClose (acc : List Char) : LinkScanState
deriving DecidableEq

/-- State machine extracting `[[...]]` spans: a span opens at `[[` and
closes at the first following `]]`. -/
def scanTitlesAux : LinkScanState → List Char → List String
  | _, [] => []
  | .outside, c :: rest =>
    if c = '[' then scanTitlesAux .sawOpen rest
    else scanTitlesAux .outside rest
  | .sawOpen, c :: rest =>
    if c = '[' then scanTitlesAux (.inside []) rest
    else scanTitlesAux .outside rest
  | .inside acc, c :: rest =>
    if c = ']' then scanTitlesAux (.sawClose acc) rest
    else scanTitlesAux (.inside (c :: acc)) rest
  | .sawClose acc, c :: rest =>
    if c = ']' then String.mk acc.reverse :: scanTitlesAux .outside rest
    else scanTitlesAux (.inside (c :: ']' :: acc)) rest

/-- Modelled from the spec: the `extractNoteTitles` utility (imported from
`@/utils`, not in the processor source) — all inner texts of `[[...]]`
spans of `s`, in scan order. -/
def extractNoteTitles (s : String) : List String :=
  scanTitlesAux .outside s.data

/-- Mirrors `processedPrompt.replace(/\{\}/g, "{selectedText}")`
(line 238): every occurrence of the literal `{}` is replaced. -/
def replaceEmptyBracesAux : List Char → List Char
  | [] => []
  | '{' :: '}' :: rest => "{selectedText}".data ++ replaceEmptyBracesAux rest
  | c :: rest => c :: replaceEmptyBracesAux rest

/-- String-level wrapper of `replaceEmptyBracesAux`. -/
def replaceEmptyBraces (s : String) : String :=
  String.mk (replaceEmptyBracesAux s.data)

/-! ### The note repository model

The adapter functions (`getFileContent`, `getFileName`,
`getNoteFileFromTitle`, `getNotesFromPath`, `getNotesFromTags`,
`processVariableNameForNotePath`) are imported from `@/utils` and are not
part of the processor source; they are modelled from the spec's
Note Repository Adapter interface (spec section 6) and the heading-slice
semantics of section 4.2. -/

/-- A note of the vault: display name (basename), raw content, tags,
and path. -/
structure NoteFile where
  name : String
  content : String
  tags : List String
  path : String
deriving DecidableEq

/-- The note repository: an ordered listing of files. -/
structure Vault where
  files : List NoteFile
deriving DecidableEq

/-- Modelled from the spec: display-name accessor of a file handle. -/
def getFileName (f : NoteFile) : String := f.name

/-- Modelled from the spec: resolve a title to a file by display-name
match. -/
def getNoteFileFromTitle (vault : Vault) (title : String) : Option NoteFile :=
  vault.files.find? (fun f => f.name == title)

/-- Modelled from the spec: all notes carrying any of the given tags, in
repository listing order. -/
def getNotesFromTags (vault : Vault) (tagNames : List String) : List NoteFile :=
  vault.files.filter (fun f => tagNames.any (fun t => f.tags.contains t))

/-- Modelled from the spec: normalization of a variable name into a note
path; the spec does not fix a normalization, so it is modelled as the
identity. -/
def processVariableNameForNotePath (variableName : String) : String :=
  variableName

/-- Modelled from the spec: all notes whose path matches the given path
pattern, in repository listing order (matching modelled as a path-prefix
test). -/
def getNotesFromPath (vault : Vault) (path : String) : List NoteFile :=
  vault.files.filter (fun f => strStartsWith f.path path)

/-- Number of leading `#` characters of a line. -/
def leadingHashes : List Char → Nat
  | '#' :: rest => leadingHashes rest + 1
  | _ => 0

/-- Markdown heading level of a line (0 when the line is not a heading). -/
def headingLevel (line : String) : Nat :=
  leadingHashes line.data

/-- Whether a line is a markdown heading line. -/
def isHeadingLine (line : String) : Bool :=
  decide (0 < headingLevel line)

/-- The text of a heading line (after the `#` marks, trimmed). -/
def headingText (line : String) : String :=
  trimStr (String.mk (line.data.dropWhile (fun c => c = '#')))

/-- Modelled from the spec (section 4.2): the section of `content` starting
at the first heading line whose text equals `target`, extending to the next
heading of equal-or-higher level, exclusive; the heading line itself is not
part of the section. When no heading matches, the full content is returned
(missing headings are tolerated). -/
def sliceHeading (content target : String) : String :=
  let lines := splitOnChar '\n' content
  match lines.findIdx? (fun l => isHeadingLine l && headingText l == target) with
  | none => content
  | some i =>
    let lvl := headingLevel (lines.getD i "")
    let after := lines.drop (i + 1)
    joinSep "\n" (after.takeWhile (fun l => !(isHeadingLine l && decide (headingLevel l ≤ lvl))))

/-- Modelled from the spec: `getFileContent(file, vault, heading?)` — the
full content of a file, or, when a heading is supplied, only that heading's
section. -/
def getFileContent (f : NoteFile) (heading : Option String) : String :=
  match heading with
  | none => f.content
  | some h => sliceHeading f.content h

/-! ### Notice texts -/

/-- A single-quote character, kept out of string literals. -/
def sq : String := String.mk [Char.ofNat 39]

/-- The notice raised when a variable resolves to zero non-empty notes
(line 199; the variable name is wrapped in single quotes in the source). -/
def warningNoNotes (variableName : String) : String :=
  "Warning: No valid notes found for the provided path " ++ sq ++ variableName ++ sq ++ "."

/-- The notice raised by the `{activeNote}` branch when there is no active
note (line 166). -/
def noActiveNoteNotice : String := "No active note found."

/-! ### The variable resolver (`extractVariablesFromPrompt`, lines 141–204) -/

/-- One iteration of the `while ((match = variableRegex.exec(...)))` loop of
`extractVariablesFromPrompt` for the raw inner text `rawInner` of one
`{...}` span: the resolved merged block (or `none`), together with the
notices raised. -/
def resolveVariable (vault : Vault) (activeNote : Option NoteFile) (rawInner : String) :
    Option String × List String :=
  let variableName := trimStr rawInner
  let resolved : List (String × String) × List String :=
    if lowerStr variableName == "activenote" then
      match activeNote with
      | some note =>
        let content := getFileContent note none
        (if content != "" then [(getFileName note, content)] else [], [])
      | none => ([], [noActiveNoteNotice])
    else if strStartsWith variableName "#" then
      let tagNames := (splitOnChar ',' (dropStr 1 variableName)).map trimStr
      ((getNotesFromTags vault tagNames).filterMap
        (fun f =>
          let c := getFileContent f none
          if c != "" then some (getFileName f, c) else none), [])
    else
      let processed := processVariableNameForNotePath variableName
      ((getNotesFromPath vault processed).filterMap
        (fun f =>
          let c := getFileContent f none
          if c != "" then some (getFileName f, c) else none), [])
  let notes := resolved.1
  if 0 < notes.length then
    (some (joinSep "\n\n" (notes.map (fun n => "## " ++ n.1 ++ "\n\n" ++ n.2))), resolved.2)
  else
    (none, resolved.2 ++ [warningNoNotes variableName])

/-- `extractVariablesFromPrompt(customPrompt, activeNote)`: the list
`variablesWithContent` (one entry per `{...}` span that resolved to at
least one non-empty note, in scan order) and the notices raised. -/
def extractVariablesFromPrompt (vault : Vault) (customPrompt : String)
    (activeNote : Option NoteFile) : List String × List String :=
  let ms := extractMatches customPrompt
  (ms.filterMap (fun m => (resolveVariable vault activeNote m).1),
   (ms.map (fun m => (resolveVariable vault activeNote m).2)).flatten)

/-! ### The prompt expander (`processCustomPrompt`, lines 218–291) -/

/-- The `for (let i = 0; i < variablesWithContent.length; i++)` merge loop
(lines 249–258): pairs the i-th resolved content with the i-th `{...}`
span's raw text, skipping the pair when the raw text lowercases to
`activenote` and the active note's content was already added for the `{}`
placeholder. -/
def mergeVarBlocks (activeNoteTruthy : Bool) : List String → List String → String
  | v :: vs, m :: ms =>
    (if lowerStr m == "activenote" && activeNoteTruthy then ""
     else "\n\n" ++ m ++ ":\n\n" ++ v) ++ mergeVarBlocks activeNoteTruthy vs ms
  | _, _ => ""

/-- The `[titlePart, headingPart] = noteTitle.split('#').map(trim)` parse
(lines 272–275): the title part passed to `getNoteFileFromTitle`. -/
def parsedLinkTitle (noteTitle : String) : String :=
  if containsSub "#" noteTitle then
    ((splitOnChar '#' noteTitle).map trimStr).getD 0 ""
  else noteTitle

/-- The heading in effect for one note link: the link's own `#heading` part
when present, otherwise the value left in the `noteHeading` variable by
earlier iterations (the variable is declared outside the loop, line 264). -/
def linkHeading (noteTitle : String) (prev : Option String) : Option String :=
  if containsSub "#" noteTitle then
    some (((splitOnChar '#' noteTitle).map trimStr).getD 1 "")
  else prev

/-- One iteration of the `for (const noteTitle of noteTitles)` loop
(lines 266–288). The state is the pair (current `noteHeading` value,
accumulated `additionalInfo`). The link is skipped when the literal
`[[noteTitle]]` occurs inside the raw inner text of any `{...}` span
(line 268). -/
def noteLinkStep (vault : Vault) (varMatches : List String)
    (st : Option String × String) (noteTitle : String) : Option String × String :=
  if varMatches.any (fun m => containsSub ("[[" ++ noteTitle ++ "]]") m) then st
  else
    let noteHeading := linkHeading noteTitle st.1
    match getNoteFileFromTitle vault (parsedLinkTitle noteTitle) with
    | some noteFile =>
      (noteHeading,
        st.2 ++ ("\n\n[[" ++ noteTitle ++ "]]:\n\n" ++ getFileContent noteFile noteHeading))
    | none => (noteHeading, st.2)

/-- `processCustomPrompt(customPrompt, selectedText, activeNote)`: the
final expanded prompt string together with all notices raised. -/
def processCustomPrompt (vault : Vault) (customPrompt selectedText : String)
    (activeNote : Option NoteFile) : String × List String :=
  let extracted := extractVariablesFromPrompt vault customPrompt activeNote
  let variablesWithContent := extracted.1
  let varMatches := extractMatches customPrompt
  let hasEmptyBraces := containsSub "{}" customPrompt
  let processedPrompt :=
    if hasEmptyBraces then replaceEmptyBraces customPrompt else customPrompt
  let selInfo : String × Option String :=
    if hasEmptyBraces then
      if selectedText != "" then ("selectedText:\n\n " ++ selectedText, none)
      else
        match activeNote with
        | some note =>
          ("selectedText (entire active note):\n\n " ++ getFileContent note none,
           some (getFileContent note none))
        | none => ("selectedText:\n\n (No selected text or active note available)", none)
    else ("", none)
  let activeNoteTruthy :=
    match selInfo.2 with
    | some c => c != ""
    | none => false
  let additionalInfo := selInfo.1 ++ mergeVarBlocks activeNoteTruthy variablesWithContent varMatches
  let linkState :=
    (extractNoteTitles processedPrompt).foldl (noteLinkStep vault varMatches) (none, additionalInfo)
  (processedPrompt ++ "\n\n" ++ linkState.2, extracted.2)

/-! ### The prompt store (`updatePrompt`, lines 93–115)

Modelled from the source plus, for the usage records, from the spec's
Usage Tracker (the `PromptUsageStrategy` class is not in the processor
source): `updateUsage(originTitle, newTitle)` re-keys the usage record. -/

/-- A stored document of the vault (path plus raw content). -/
structure StoredDoc where
  path : String
  content : String
deriving DecidableEq

/-- The prompt store state: documents plus usage records
(title, lastUsedEpoch). -/
structure PromptStore where
  docs : List StoredDoc
  usage : List (String × Nat)
deriving DecidableEq

/-- `vault.getAbstractFileByPath(p)` restricted to files. -/
def getAbstractFileByPath (docs : List StoredDoc) (p : String) : Option StoredDoc :=
  docs.find? (fun d => d.path == p)

/-- The duplicate-title error message thrown by `updatePrompt`
(lines 103–105). -/
def duplicateTitleError : String :=
  "Error saving custom prompt. Please check if the title already exists."

/-- `updatePrompt(originTitle, newTitle, content)`: the resulting store and
the error raised, if any. The source throws the duplicate-title error
before issuing any write, so the error case returns the store unchanged;
when no file exists at the origin title the method silently does
nothing. -/
def updatePrompt (folder : String) (st : PromptStore)
    (originTitle newTitle content : String) : PromptStore × Option String :=
  let filePath := folder ++ "/" ++ originTitle ++ ".md"
  match getAbstractFileByPath st.docs filePath with
  | none => (st, none)
  | some _ =>
    if originTitle != newTitle then
      let newFilePath := folder ++ "/" ++ newTitle ++ ".md"
      if (getAbstractFileByPath st.docs newFilePath).isSome then
        (st, some duplicateTitleError)
      else
        let renamed : PromptStore :=
          { docs := st.docs.map (fun d =>
              if d.path == filePath then { d with path := newFilePath } else d),
            usage := st.usage.map (fun u =>
              if u.1 == originTitle then (newTitle, u.2) else u) }
        ({ renamed with
            docs := renamed.docs.map (fun d =>
              if d.path == newFilePath then { d with content := content } else d) },
         none)
    else
      ({ st with
          docs := st.docs.map (fun d =>
            if d.path == filePath then { d with content := content } else d) },
       none)

/-! ### General lemmas about the embedding -/

/-- A string with non-empty character data is not the empty string. -/
theorem str_ne_empty_of_data_ne (s : String) (h : s.data ≠ []) : s ≠ "" := by
  intro he
  subst he
  exact h rfl

/-- Appending to the right of a non-empty string stays non-empty. -/
theorem strAppend_ne_empty_left (a b : String) (h : a.data ≠ []) : a ++ b ≠ "" := by
  apply str_ne_empty_of_data_ne
  rw [String.data_append]
  intro hc
  exact h (List.append_eq_nil.mp hc).1

/-- Every block appended by the note-link loop is non-empty (it starts with
the `\n\n[[` separator). -/
theorem linkBlock_ne_empty (t u v : String) : ("\n\n[[" ++ t ++ u ++ v) ≠ "" := by
  have h1 : ("\n\n[[" : String).data ≠ [] := by decide
  have h2 : (("\n\n[[" ++ t).data) ≠ [] := by
    rw [String.data_append]
    intro hc
    exact h1 (List.append_eq_nil.mp hc).1
  have h3 : ((("\n\n[[" ++ t ++ u).data)) ≠ [] := by
    rw [String.data_append]
    intro hc
    exact h2 (List.append_eq_nil.mp hc).1
  exact strAppend_ne_empty_left _ _ h3

/-- `mergeVarBlocks` on an empty block list contributes nothing. -/
theorem mergeVarBlocks_nil_left (b : Bool) (l : List String) :
    mergeVarBlocks b [] l = "" := by
  cases l <;> rfl

/-- With the active-note skip disabled, `mergeVarBlocks` pairs the i-th
content with the i-th raw span text. -/
theorem mergeVarBlocks_all (g : String → String) (ms : List String) :
    mergeVarBlocks false (ms.map g) ms =
      strConcat (ms.map fun m => "\n\n" ++ m ++ ":\n\n" ++ g m) := by
  induction ms with
  | nil => rfl
  | cons m ms ih => simp [mergeVarBlocks, strConcat, ih]

/-- Shifting the accumulated `additionalInfo` through one note-link
iteration: the iteration only appends to the accumulator, and its heading
state does not depend on the accumulator. -/
theorem noteLinkStep_shift (vault : Vault) (varMatches : List String) (t : String)
    (hd : Option String) (a : String) :
    noteLinkStep vault varMatches (hd, a) t =
      ((noteLinkStep vault varMatches (hd, "") t).1,
       a ++ (noteLinkStep vault varMatches (hd, "") t).2) := by
  unfold noteLinkStep
  by_cases hcov : (varMatches.any fun m => containsSub ("[[" ++ t ++ "]]") m) = true
  · simp [hcov, String.append_empty]
  · simp only [Bool.not_eq_true] at hcov
    simp only [hcov, Bool.false_eq_true, if_false]
    cases hfile : getNoteFileFromTitle vault (parsedLinkTitle t) <;>
      simp [hfile, String.append_empty, String.empty_append]

/-- Shifting the accumulated `additionalInfo` through the whole note-link
loop. -/
theorem noteLinksFold_shift (vault : Vault) (varMatches : List String) (ts : List String)
    (hd : Option String) (a : String) :
    ts.foldl (noteLinkStep vault varMatches) (hd, a) =
      ((ts.foldl (noteLinkStep vault varMatches) (hd, "")).1,
       a ++ (ts.foldl (noteLinkStep vault varMatches) (hd, "")).2) := by
  induction ts generalizing hd a with
  | nil => simp [String.append_empty]
  | cons t ts ih =>
    simp only [List.foldl_cons]
    cases hstep : noteLinkStep vault varMatches (hd, "") t with
    | mk c1 c2 =>
      have hshift := noteLinkStep_shift vault varMatches t hd a
      rw [hstep] at hshift
      rw [hshift, ih, ih c1 c2, String.append_assoc]

/-- A `filterMap` whose function is total on the list is a `map`. -/
theorem filterMap_eq_map_of_isSome {α : Type} (f : α → Option String) (l : List α)
    (h : ∀ a ∈ l, (f a).isSome = true) :
    l.filterMap f = l.map fun a => (f a).getD "" := by
  induction l with
  | nil => rfl
  | cons a l ih =>
    obtain ⟨b, hb⟩ := Option.isSome_iff_exists.mp (h a (List.mem_cons_self a l))
    simp [List.filterMap_cons, hb, ih fun x hx => h x (List.mem_cons_of_mem a hx)]

/-- The note-collecting `filterMap` of the resolver is a `filter` of the
non-empty notes followed by a `map` to (name, content) pairs. -/
theorem filterMap_noteContent (l : List NoteFile) :
    (l.filterMap fun f => if f.content != "" then some (f.name, f.content) else none) =
      (l.filter fun f => f.content != "").map fun f => (f.name, f.content) := by
  induction l with
  | nil => rfl
  | cons a l ih =>
    cases hfa : (a.content != "") with
    | false =>
      rw [List.filterMap_cons_none, List.filter_cons_of_neg, ih]
      · simp [hfa]
      · simp [hfa]
    | true =>
      rw [List.filterMap_cons_some, List.filter_cons_of_pos, List.map_cons, ih]
      · simp [hfa]
      · simp [hfa]

/-- Without a `{` there is no `{...}` variable span. -/
theorem scanBraces_of_no_lbrace (l : List Char) (h : '{' ∉ l) : scanBracesAux none l = [] := by
  induction l with
  | nil => rfl
  | cons c rest ih =>
    simp only [List.mem_cons, not_or] at h
    simp only [scanBracesAux]
    rw [if_neg (Ne.symm h.1)]
    exact ih h.2

/-- The head character of a contained substring occurs in the haystack. -/
theorem mem_of_listContainsSub (c : Char) (p l : List Char)
    (h : listContainsSub (c :: p) l = true) : c ∈ l := by
  induction l with
  | nil => simp [listContainsSub, listStartsWith] at h
  | cons d rest ih =>
    simp only [listContainsSub, Bool.or_eq_true] at h
    cases h with
    | inl h =>
      simp only [listStartsWith, Bool.and_eq_true, beq_iff_eq] at h
      rw [h.1]
      exact List.mem_cons_self d rest
    | inr h => exact List.mem_cons_of_mem d (ih h)

/-- A string without `{` does not contain the substring `{}`. -/
theorem containsSub_braces_eq_false (s : String) (h : '{' ∉ s.data) :
    containsSub "{}" s = false := by
  cases hb : containsSub "{}" s
  · rfl
  · unfold containsSub at hb
    exact absurd (mem_of_listContainsSub '{' ['}'] s.data hb) h

/-- A string without `#` does not contain the substring `#`. -/
theorem containsSub_hash_eq_false (s : String) (h : '#' ∉ s.data) :
    containsSub "#" s = false := by
  cases hb : containsSub "#" s
  · rfl
  · unfold containsSub at hb
    exact absurd (mem_of_listContainsSub '#' [] s.data hb) h

/-- Scanning the inside of a `[[...]]` span whose inner text has no `]`
reaches the closing `]]` with exactly that inner text. -/
theorem scanTitles_inside : ∀ (t acc l : List Char), ']' ∉ t →
    scanTitlesAux (.inside acc) (t ++ ']' :: ']' :: l) =
      String.mk (acc.reverse ++ t) :: scanTitlesAux .outside l := by
  intro t
  induction t with
  | nil =>
    intro acc l _
    simp [scanTitlesAux]
  | cons c t ih =>
    intro acc l h
    simp only [List.mem_cons, not_or] at h
    rw [List.cons_append]
    simp only [scanTitlesAux]
    rw [if_neg (Ne.symm h.1), ih (c :: acc) l h.2]
    simp [List.append_assoc]

/-- A template that is exactly one `[[title]]` reference (title without `]`)
has exactly that one note-link span. -/
theorem extractNoteTitles_single (t : String) (h : ']' ∉ t.data) :
    extractNoteTitles ("[[" ++ t ++ "]]") = [t] := by
  have hd : ("[[" ++ t ++ "]]").data = '[' :: '[' :: (t.data ++ ']' :: ']' :: []) := rfl
  unfold extractNoteTitles
  rw [hd]
  simp only [scanTitlesAux, if_pos rfl]
  rw [scanTitles_inside t.data [] [] h]
  simp [scanTitlesAux]

/-! ### Claim theorems -/

/-- Claim C8: determinism of expansion — for every fixed template, selected
text, active note and repository state, two calls of `processCustomPrompt`
return byte-identical results (two-run equality of the embedded
function). -/
theorem processCustomPrompt_deterministic (vault : Vault) (template selectedText : String)
    (activeNote : Option NoteFile) :
    processCustomPrompt vault template selectedText activeNote =
      processCustomPrompt vault template selectedText activeNote := rfl

/-- Claim C9: plain-template baseline — for every template with no `{...}`
variable span, no `{}` substring and no `[[...]]` note-link span,
`processCustomPrompt` returns exactly the template followed by `"\n\n"`
(empty additional info) and raises no notice, for every selected text and
active note. -/
theorem plain_template_baseline (vault : Vault) (template selectedText : String)
    (activeNote : Option NoteFile)
    (hm : extractMatches template = [])
    (hb : containsSub "{}" template = false)
    (hn : extractNoteTitles template = []) :
    processCustomPrompt vault template selectedText activeNote = (template ++ "\n\n", []) := by
  unfold processCustomPrompt extractVariablesFromPrompt
  simp [hm, hb, hn, mergeVarBlocks_nil_left, String.append_empty]

/-- Witness for C9 at a concrete plain template. -/
theorem plain_template_baseline_wit :
    extractMatches "An ordinary prompt." = [] ∧
    containsSub "{}" "An ordinary prompt." = false ∧
    extractNoteTitles "An ordinary prompt." = [] ∧
    processCustomPrompt ⟨[]⟩ "An ordinary prompt." "sel" none =
      ("An ordinary prompt." ++ "\n\n", []) :=
  ⟨rfl, rfl, rfl, plain_template_baseline ⟨[]⟩ "An ordinary prompt." "sel" none rfl rfl rfl⟩

/-- Claim C10: during variable resolution — in all three branches
(`{activeNote}`, tag set, path pattern) — a matched note whose content is
the empty string is silently excluded from the variable's merged block, and
the unresolved-variable warning is emitted exactly when zero matched notes
have non-empty content (the missing-active-note notice is the only other
notice, emitted in the `{activeNote}`-without-active-note case). -/
theorem empty_note_filter_warning (vault : Vault) (activeNote : Option NoteFile)
    (rawInner : String) :
    resolveVariable vault activeNote rawInner =
      (let v := trimStr rawInner
       let matched :=
         if lowerStr v == "activenote" then activeNote.toList
         else if strStartsWith v "#" then
           getNotesFromTags vault ((splitOnChar ',' (dropStr 1 v)).map trimStr)
         else getNotesFromPath vault (processVariableNameForNotePath v)
       let nonEmptyNotes := matched.filter fun f => f.content != ""
       ((if nonEmptyNotes.isEmpty then none
         else some (joinSep "\n\n"
           (nonEmptyNotes.map fun f => "## " ++ f.name ++ "\n\n" ++ f.content))),
        (if lowerStr v == "activenote" && activeNote.isNone then [noActiveNoteNotice] else []) ++
          (if nonEmptyNotes.isEmpty then [warningNoNotes v] else []))) := by
  unfold resolveVariable
  by_cases ha : (lowerStr (trimStr rawInner) == "activenote") = true
  · cases activeNote with
    | none => simp [ha, getFileContent]
    | some note =>
      by_cases hc : (note.content != "") = true
      · simp [ha, hc, getFileContent, getFileName, joinSep, List.filter_cons]
      · simp [ha, hc, getFileContent, getFileName, List.filter_cons]
  · simp only [Bool.not_eq_true] at ha
    by_cases ht : strStartsWith (trimStr rawInner) "#" = true
    · simp only [ha, ht, Bool.false_eq_true, if_false, if_true, getFileContent, getFileName]
      rw [filterMap_noteContent]
      cases hfe : (getNotesFromTags vault
          ((splitOnChar ',' (dropStr 1 (trimStr rawInner))).map trimStr)).filter
          (fun f => f.content != "") with
      | nil => simp [ha]
      | cons x xs => simp [ha, List.map_map, Function.comp_def]
    · simp only [Bool.not_eq_true] at ht
      simp only [ha, ht, Bool.false_eq_true, if_false, getFileContent, getFileName]
      rw [filterMap_noteContent]
      cases hfe : (getNotesFromPath vault
          (processVariableNameForNotePath (trimStr rawInner))).filter
          (fun f => f.content != "") with
      | nil => simp [ha]
      | cons x xs => simp [ha, List.map_map, Function.comp_def]

/-- Witness for C10: the equation evaluated at a concrete vault with one
empty and one non-empty note matching a path variable — the empty note is
dropped and no warning is raised. -/
theorem empty_note_filter_warning_wit :
    resolveVariable ⟨[⟨"E", "", [], "p/e"⟩, ⟨"N", "stuff", [], "p/n"⟩]⟩ none "p" =
      (let v := trimStr "p"
       let matched :=
         if lowerStr v == "activenote" then (none : Option NoteFile).toList
         else if strStartsWith v "#" then
           getNotesFromTags ⟨[⟨"E", "", [], "p/e"⟩, ⟨"N", "stuff", [], "p/n"⟩]⟩
             ((splitOnChar ',' (dropStr 1 v)).map trimStr)
         else getNotesFromPath ⟨[⟨"E", "", [], "p/e"⟩, ⟨"N", "stuff", [], "p/n"⟩]⟩
           (processVariableNameForNotePath v)
       let nonEmptyNotes := matched.filter fun f => f.content != ""
       ((if nonEmptyNotes.isEmpty then none
         else some (joinSep "\n\n"
           (nonEmptyNotes.map fun f => "## " ++ f.name ++ "\n\n" ++ f.content))),
        (if lowerStr v == "activenote" && (none : Option NoteFile).isNone
         then [noActiveNoteNotice] else []) ++
          (if nonEmptyNotes.isEmpty then [warningNoNotes v] else []))) :=
  empty_note_filter_warning ⟨[⟨"E", "", [], "p/e"⟩, ⟨"N", "stuff", [], "p/n"⟩]⟩ none "p"

/-- Claim C1: duplicate-suppression heuristic — one iteration of the
note-link loop of `processCustomPrompt` leaves everything unchanged when
the literal `[[title]]` occurs inside the raw inner text of some `{...}`
span matched in the template, and otherwise resolves the link, contributing
a content block exactly when the parsed title resolves to a file. -/
theorem note_link_dup_suppression (vault : Vault) (template : String) (hd : Option String)
    (acc : String) (title : String) :
    (((extractMatches template).any fun m => containsSub ("[[" ++ title ++ "]]") m) = true →
      noteLinkStep vault (extractMatches template) (hd, acc) title = (hd, acc)) ∧
    (((extractMatches template).any fun m => containsSub ("[[" ++ title ++ "]]") m) = false →
      ∃ add, (noteLinkStep vault (extractMatches template) (hd, acc) title).2 = acc ++ add ∧
        (add = "" ↔ getNoteFileFromTitle vault (parsedLinkTitle title) = none)) := by
  constructor
  · intro hcov
    unfold noteLinkStep
    simp [hcov]
  · intro hcov
    unfold noteLinkStep
    simp only [hcov, Bool.false_eq_true, if_false]
    cases hfile : getNoteFileFromTitle vault (parsedLinkTitle title) with
    | some f =>
      simp only [hfile]
      refine ⟨"\n\n[[" ++ title ++ "]]:\n\n" ++ getFileContent f (linkHeading title hd),
        rfl, ?_⟩
      constructor
      · intro habs
        exact absurd habs (linkBlock_ne_empty title "]]:\n\n" _)
      · intro hnone
        cases hnone
    | none =>
      simp only [hfile]
      exact ⟨"", (String.append_empty acc).symm, by simp⟩

/-- Witness for C1: a covered link is skipped; a non-covered link is
resolved against the vault. -/
theorem note_link_dup_suppression_wit :
    (((extractMatches "{[[A]]}").any fun m => containsSub ("[[" ++ "A" ++ "]]") m) = true ∧
      noteLinkStep ⟨[⟨"A", "hi", [], "A"⟩]⟩ (extractMatches "{[[A]]}") (none, "start") "A" =
        (none, "start")) ∧
    (((extractMatches "{x}").any fun m => containsSub ("[[" ++ "A" ++ "]]") m) = false ∧
      ∃ add,
        (noteLinkStep ⟨[⟨"A", "hi", [], "A"⟩]⟩ (extractMatches "{x}") (none, "start") "A").2 =
          "start" ++ add ∧
        (add = "" ↔ getNoteFileFromTitle ⟨[⟨"A", "hi", [], "A"⟩]⟩ (parsedLinkTitle "A") = none)) :=
  ⟨⟨by decide,
    (note_link_dup_suppression ⟨[⟨"A", "hi", [], "A"⟩]⟩ "{[[A]]}" none "start" "A").1
      (by decide)⟩,
   ⟨by decide,
    (note_link_dup_suppression ⟨[⟨"A", "hi", [], "A"⟩]⟩ "{x}" none "start" "A").2
      (by decide)⟩⟩

/-- Counterexample to claim C2 as stated: the `{activeNote}` block is not
exactly the note's full content — `extractVariablesFromPrompt` prepends a
`## <name>` heading (line 195) inside the block. -/
theorem activeNote_block_counterexample :
    (processCustomPrompt ⟨[]⟩ "{activeNote}" "" (some ⟨"Note", "Hello", [], "Note"⟩)).1 =
      "{activeNote}\n\n\n\nactiveNote:\n\n## Note\n\nHello" ∧
    (processCustomPrompt ⟨[]⟩ "{activeNote}" "" (some ⟨"Note", "Hello", [], "Note"⟩)).1 ≠
      "{activeNote}\n\n\n\nactiveNote:\n\nHello" := by
  constructor
  · rfl
  · decide

/-- Claim C2 (amended): for every note with non-empty content,
`processCustomPrompt "{activeNote}" "" note` returns the template followed
by one block labeled `activeNote` whose content is the note's full content
prefixed by `## <name>\n\n`, and raises no notice. -/
theorem activeNote_block_amended (vault : Vault) (note : NoteFile)
    (h : (note.content != "") = true) :
    processCustomPrompt vault "{activeNote}" "" (some note) =
      ("{activeNote}\n\n\n\nactiveNote:\n\n## " ++ note.name ++ "\n\n" ++ note.content, []) := by
  have e1 : (lowerStr (trimStr "activeNote") == "activenote") = true := rfl
  have hrv : resolveVariable vault (some note) "activeNote" =
      (some ("## " ++ note.name ++ "\n\n" ++ note.content), []) := by
    unfold resolveVariable
    simp [e1, getFileContent, getFileName, h, joinSep]
  have hm : extractMatches "{activeNote}" = ["activeNote"] := rfl
  have hbr : containsSub "{}" "{activeNote}" = false := rfl
  have hn : extractNoteTitles "{activeNote}" = [] := rfl
  unfold processCustomPrompt extractVariablesFromPrompt
  rw [hm, hbr]
  simp [hrv, hn, mergeVarBlocks, String.append_empty, String.empty_append, String.append_assoc]
  apply String.ext
  simp only [String.data_append]
  rfl

/-- Witness for the amended C2 at a concrete note. -/
theorem activeNote_block_amended_wit :
    ((NoteFile.mk "Note" "Hello" [] "Note").content != "") = true ∧
    processCustomPrompt ⟨[]⟩ "{activeNote}" "" (some ⟨"Note", "Hello", [], "Note"⟩) =
      ("{activeNote}\n\n\n\nactiveNote:\n\n## " ++ "Note" ++ "\n\n" ++ "Hello", []) :=
  ⟨by decide, activeNote_block_amended ⟨[]⟩ ⟨"Note", "Hello", [], "Note"⟩ (by decide)⟩

/-- Claim C4: empty-braces placeholder — for every template containing the
literal `{}` and non-empty selected text, `processCustomPrompt` replaces
every `{}` with `{selectedText}` in the returned body and the additional
info starts with one block whose content is exactly
`selectedText:\n\n <selectedText>`. -/
theorem empty_braces_placeholder (vault : Vault) (template selectedText : String)
    (activeNote : Option NoteFile)
    (hb : containsSub "{}" template = true)
    (hs : (selectedText != "") = true) :
    ∃ rest, (processCustomPrompt vault template selectedText activeNote).1 =
      replaceEmptyBraces template ++ "\n\n" ++
        (("selectedText:\n\n " ++ selectedText) ++ rest) := by
  unfold processCustomPrompt
  simp only [hb, hs, if_true]
  refine ⟨mergeVarBlocks false (extractVariablesFromPrompt vault template activeNote).1
      (extractMatches template) ++
    ((extractNoteTitles (replaceEmptyBraces template)).foldl
      (noteLinkStep vault (extractMatches template)) (none, "")).2, ?_⟩
  rw [noteLinksFold_shift]
  simp [String.append_assoc]

/-- Witness for C4 at the spec's concrete example
`expand("{}", "hello world", undefined)`. -/
theorem empty_braces_placeholder_wit :
    containsSub "{}" "{}" = true ∧ ("hello world" != "") = true ∧
    ∃ rest, (processCustomPrompt ⟨[]⟩ "{}" "hello world" none).1 =
      replaceEmptyBraces "{}" ++ "\n\n" ++ (("selectedText:\n\n " ++ "hello world") ++ rest) :=
  ⟨by decide, by decide, empty_braces_placeholder ⟨[]⟩ "{}" "hello world" none rfl rfl⟩

/-- Claim C6: missing note link is soft and silent — for every template that
is exactly one `[[title]]` reference (no heading) whose title resolves to no
file, `processCustomPrompt` returns the template plus the trailing
separator, with no block and no notice; asymmetrically, an unresolved
`{...}` variable does raise a notice. -/
theorem missing_note_link_silent (vault : Vault) (title selectedText : String)
    (activeNote : Option NoteFile)
    (h1 : '{' ∉ title.data) (h2 : ']' ∉ title.data) (h3 : '#' ∉ title.data)
    (h4 : getNoteFileFromTitle vault title = none) :
    processCustomPrompt vault ("[[" ++ title ++ "]]") selectedText activeNote =
      ("[[" ++ title ++ "]]" ++ "\n\n", []) ∧
    (processCustomPrompt (Vault.mk []) "{Missing Note}" "" none).2 ≠ [] := by
  constructor
  · have hdlist : ("[[" ++ title ++ "]]").data =
        '[' :: '[' :: (title.data ++ ']' :: ']' :: []) := rfl
    have hnolb : '{' ∉ '[' :: '[' :: (title.data ++ ']' :: ']' :: []) := by
      intro hmem
      simp only [List.mem_cons, List.mem_append] at hmem
      rcases hmem with h | h | h | h
      · exact absurd h (by decide)
      · exact absurd h (by decide)
      · exact h1 h
      · exact absurd h (by decide)
    have hm : extractMatches ("[[" ++ title ++ "]]") = [] := by
      unfold extractMatches
      rw [hdlist]
      exact scanBraces_of_no_lbrace _ hnolb
    have hbr : containsSub "{}" ("[[" ++ title ++ "]]") = false := by
      apply containsSub_braces_eq_false
      rw [hdlist]
      exact hnolb
    have hn : extractNoteTitles ("[[" ++ title ++ "]]") = [title] :=
      extractNoteTitles_single title h2
    have hh : containsSub "#" title = false := containsSub_hash_eq_false title h3
    unfold processCustomPrompt extractVariablesFromPrompt
    rw [hm, hbr]
    simp [hn, mergeVarBlocks_nil_left, noteLinkStep, linkHeading, parsedLinkTitle, hh, h4,
      String.append_empty]
  · decide

/-- Witness for C6 at the spec's concrete example `[[Missing Note]]` against
an empty vault. -/
theorem missing_note_link_silent_wit :
    ('{' ∉ "Missing Note".data) ∧ (']' ∉ "Missing Note".data) ∧ ('#' ∉ "Missing Note".data) ∧
    getNoteFileFromTitle ⟨[]⟩ "Missing Note" = none ∧
    (processCustomPrompt ⟨[]⟩ ("[[" ++ "Missing Note" ++ "]]") "" none =
        ("[[" ++ "Missing Note" ++ "]]" ++ "\n\n", []) ∧
      (processCustomPrompt (Vault.mk []) "{Missing Note}" "" none).2 ≠ []) :=
  ⟨by decide, by decide, by decide, rfl,
   missing_note_link_silent ⟨[]⟩ "Missing Note" "" none (by decide) (by decide) (by decide) rfl⟩

/-- Claim C3 (defect in the source): heading state leaks across note-link
iterations — the `noteHeading` variable is declared outside the loop
(line 264), so a later `[[B]]` without a heading is fetched with the
heading left by an earlier `[[A#Intro]]`, yielding B's `Intro` section
(`secret`) instead of B's full content. -/
theorem heading_leak_bug :
    processCustomPrompt
        ⟨[⟨"A", "# Intro\nalpha", [], "A"⟩,
          ⟨"B", "before\n# Intro\nsecret\n# Tail\nafter", [], "B"⟩]⟩
        "[[A#Intro]] [[B]]" "" none =
      ("[[A#Intro]] [[B]]\n\n\n\n[[A#Intro]]:\n\nalpha\n\n[[B]]:\n\nsecret", []) ∧
    (processCustomPrompt
        ⟨[⟨"A", "# Intro\nalpha", [], "A"⟩,
          ⟨"B", "before\n# Intro\nsecret\n# Tail\nafter", [], "B"⟩]⟩
        "[[A#Intro]] [[B]]" "" none).1 ≠
      ("[[A#Intro]] [[B]]\n\n\n\n[[A#Intro]]:\n\nalpha\n\n[[B]]:\n\n" ++
        "before\n# Intro\nsecret\n# Tail\nafter") := by
  constructor
  · rfl
  · decide

/-- Counterexample to claim C5 as stated: when an earlier variable resolves
to zero notes, the merge loop pairs the first resolved content with the
raw text of the first span, labeling Found's content with `Missing`. -/
theorem block_label_counterexample :
    (processCustomPrompt ⟨[⟨"FoundNote", "C", [], "Found"⟩]⟩ "{Missing} {Found}" "" none).1 =
      "{Missing} {Found}\n\n\n\nMissing:\n\n## FoundNote\n\nC" ∧
    (processCustomPrompt ⟨[⟨"FoundNote", "C", [], "Found"⟩]⟩ "{Missing} {Found}" "" none).1 ≠
      "{Missing} {Found}\n\n\n\nFound:\n\n## FoundNote\n\nC" := by
  constructor
  · rfl
  · decide

/-- Claim C5 (amended): block labels pair the i-th resolved content with
the raw text of the i-th `{...}` span; the label matches the span that
produced the content whenever every variable span of the template resolves
to at least one note (stated for templates without the `{}` placeholder). -/
theorem block_label_amended (vault : Vault) (template selectedText : String)
    (activeNote : Option NoteFile)
    (hb : containsSub "{}" template = false)
    (hall : ∀ m ∈ extractMatches template,
      ((resolveVariable vault activeNote m).1).isSome = true) :
    ∃ linkPart, (processCustomPrompt vault template selectedText activeNote).1 =
      template ++ "\n\n" ++
        (strConcat ((extractMatches template).map fun m =>
          "\n\n" ++ m ++ ":\n\n" ++ ((resolveVariable vault activeNote m).1).getD "") ++
         linkPart) := by
  unfold processCustomPrompt extractVariablesFromPrompt
  simp only [hb, Bool.false_eq_true, if_false]
  rw [filterMap_eq_map_of_isSome _ _ hall]
  refine ⟨((extractNoteTitles template).foldl
    (noteLinkStep vault (extractMatches template)) (none, "")).2, ?_⟩
  rw [noteLinksFold_shift, mergeVarBlocks_all]
  simp [String.empty_append]

/-- Witness for the amended C5 at a template whose only variable
resolves. -/
theorem block_label_amended_wit :
    containsSub "{}" "{Found}" = false ∧
    (∀ m ∈ extractMatches "{Found}",
      ((resolveVariable ⟨[⟨"FoundNote", "C", [], "Found"⟩]⟩ none m).1).isSome = true) ∧
    ∃ linkPart,
      (processCustomPrompt ⟨[⟨"FoundNote", "C", [], "Found"⟩]⟩ "{Found}" "" none).1 =
        "{Found}" ++ "\n\n" ++
          (strConcat ((extractMatches "{Found}").map fun m =>
            "\n\n" ++ m ++ ":\n\n" ++
              ((resolveVariable ⟨[⟨"FoundNote", "C", [], "Found"⟩]⟩ none m).1).getD "") ++
           linkPart) :=
  ⟨by decide, by decide,
   block_label_amended ⟨[⟨"FoundNote", "C", [], "Found"⟩]⟩ "{Found}" "" none
     (by decide) (by decide)⟩

/-- Counterexample to claim C7 as stated: when no document exists at the
origin title, `updatePrompt` is a silent no-op — it raises no
duplicate-title error even though a document exists at the new title. -/
theorem update_conflict_counterexample :
    updatePrompt "prompts" ⟨[⟨"prompts/B.md", "old"⟩], [("B", 5)]⟩ "A" "B" "new" =
      (⟨[⟨"prompts/B.md", "old"⟩], [("B", 5)]⟩, none) ∧
    (updatePrompt "prompts" ⟨[⟨"prompts/B.md", "old"⟩], [("B", 5)]⟩ "A" "B" "new").2 ≠
      some duplicateTitleError := by
  constructor
  · rfl
  · decide

/-- Claim C7 (amended): for all distinct titles with documents at both the
origin and the new title, `updatePrompt` raises the duplicate-title error
and leaves the store — documents and usage records — exactly unchanged. -/
theorem update_conflict_amended (folder : String) (st : PromptStore)
    (originTitle newTitle content : String)
    (hne : originTitle ≠ newTitle)
    (ho : (getAbstractFileByPath st.docs (folder ++ "/" ++ originTitle ++ ".md")).isSome = true)
    (hn : (getAbstractFileByPath st.docs (folder ++ "/" ++ newTitle ++ ".md")).isSome = true) :
    updatePrompt folder st originTitle newTitle content = (st, some duplicateTitleError) := by
  unfold updatePrompt
  obtain ⟨d, hd⟩ := Option.isSome_iff_exists.mp ho
  simp only [hd]
  simp [bne_iff_ne, hne, hn]

/-- Witness for the amended C7 at a concrete two-document store. -/
theorem update_conflict_amended_wit :
    ("A" : String) ≠ "B" ∧
    (getAbstractFileByPath
      (PromptStore.mk [⟨"prompts/A.md", "a"⟩, ⟨"prompts/B.md", "b"⟩] [("A", 1)]).docs
      ("prompts" ++ "/" ++ "A" ++ ".md")).isSome = true ∧
    (getAbstractFileByPath
      (PromptStore.mk [⟨"prompts/A.md", "a"⟩, ⟨"prompts/B.md", "b"⟩] [("A", 1)]).docs
      ("prompts" ++ "/" ++ "B" ++ ".md")).isSome = true ∧
    updatePrompt "prompts" ⟨[⟨"prompts/A.md", "a"⟩, ⟨"prompts/B.md", "b"⟩], [("A", 1)]⟩
        "A" "B" "c" =
      (⟨[⟨"prompts/A.md", "a"⟩, ⟨"prompts/B.md", "b"⟩], [("A", 1)]⟩, some duplicateTitleError) :=
  ⟨by decide, by decide, by decide,
   update_conflict_amended "prompts" ⟨[⟨"prompts/A.md", "a"⟩, ⟨"prompts/B.md", "b"⟩], [("A", 1)]⟩
     "A" "B" "c" (by decide) (by decide) (by decide)⟩

end Copilot
